import Mathlib

/-! Shallow embedding of the moving-average-crossover backtest engine in
`src/app.py`: the signal builder `moving_average_crossover` (lines 51-59),
the accounting function `portfolio_performance` (lines 96-107) and the two
summary metrics `total_return` / `final_value` (lines 127-129).

Modelling conventions:
* prices, signals and capital are rationals (`ℚ`), series are `List`s
  indexed positionally (the DataFrame's date index only orders the rows);
* pandas `NaN`, which enters through `Series.diff()` at index 0 and then
  propagates through arithmetic, is modelled as `none : Option ℚ`;
  `Option.map` is NaN-propagating unary arithmetic and `nanCumsum` models
  `Series.cumsum()` with its default `skipna=True`;
* rational division stands in for float division; the only division by a
  possibly-zero denominator in the code (`total[-1] / total[0]`) always has
  a NaN denominator, so the `q / 0 = 0` convention of `ℚ` is never exercised
  by the facts proved below. -/

/-- Trailing window of at most `w` samples ending at index `i`, the window
`Series.rolling(window=w, min_periods=1)` averages over. -/
def windowSlice (w : Nat) (p : List ℚ) (i : Nat) : List ℚ :=
  (p.take (i + 1)).drop (i + 1 - w)

/-- Pandas `Series.rolling(window=w, min_periods=1, center=False).mean()` on
a NaN-free series (src/app.py lines 54-55): entry `i` is the arithmetic mean
of the trailing window of at most `w` samples ending at `i`. -/
def rollingMean (w : Nat) (p : List ℚ) : List ℚ :=
  (List.range p.length).map
    (fun i => (windowSlice w p i).sum / ((windowSlice w p i).length : ℚ))

/-- Pandas `Series.diff()`: NaN at index 0, consecutive differences after. -/
def pdDiff (xs : List ℚ) : List (Option ℚ) :=
  (List.range xs.length).map
    (fun i => if i = 0 then none else some (xs.getD i 0 - xs.getD (i - 1) 0))

/-- Sum of the non-NaN entries of a series. -/
def sumSome (xs : List (Option ℚ)) : ℚ := (xs.filterMap id).sum

/-- Pandas `Series.cumsum()` (default `skipna=True`): the output is NaN
exactly where the input is NaN, and elsewhere it is the running sum of the
non-NaN entries seen so far. -/
def nanCumsum (xs : List (Option ℚ)) : List (Option ℚ) :=
  (List.range xs.length).map
    (fun i => (xs.getD i none).map (fun _ => sumSome (xs.take (i + 1))))

/-- NaN-propagating division of two possibly-NaN values. -/
def nanDiv : Option ℚ → Option ℚ → Option ℚ
  | some a, some b => some (a / b)
  | _, _ => none

deriving instance DecidableEq for Except

/-- Columns of the `signals` DataFrame built by `moving_average_crossover`
(src/app.py lines 52-58), positionally indexed.  `Position` may hold NaN
(at index 0), the other columns are NaN-free. -/
structure Signals where
  Price : List ℚ
  Short_MA : List ℚ
  Long_MA : List ℚ
  Signal : List ℚ
  Position : List (Option ℚ)
deriving DecidableEq

/-- Body of `moving_average_crossover` (src/app.py lines 52-58), i.e. the
function minus the `ValueError` pandas raises on a non-positive window:
`Signal` is `0.0` before index `short_window` and from index `short_window`
on it is `np.where(Short_MA > Long_MA, 1.0, 0.0)`; `Position` is
`Signal.diff()`. -/
def moving_average_crossover_core (prices : List ℚ)
    (short_window long_window : Nat) : Signals :=
  let short_ma := rollingMean short_window prices
  let long_ma := rollingMean long_window prices
  let signal := (List.range prices.length).map
    (fun i => if i < short_window then (0 : ℚ)
              else if short_ma.getD i 0 > long_ma.getD i 0 then 1 else 0)
  { Price := prices
    Short_MA := short_ma
    Long_MA := long_ma
    Signal := signal
    Position := pdDiff signal }

/-- Message of the `ValueError` pandas raises when `min_periods=1` exceeds
the window, i.e. when the window is non-positive. -/
def windowError : String := "ValueError: min_periods 1 must be <= window"

/-- Embedding of `moving_average_crossover` (src/app.py lines 51-59).
Pandas raises `ValueError` from `rolling(window=w, min_periods=1)` when
`w < 1`; there is no other failure path — in particular the length of the
price series is never checked. -/
def moving_average_crossover (prices : List ℚ)
    (short_window long_window : Nat) : Except String Signals :=
  if short_window = 0 ∨ long_window = 0 then .error windowError
  else .ok (moving_average_crossover_core prices short_window long_window)

/-- Column `positions['Stock'] = 100 * signals['Signal']` (src/app.py
line 98): number of stock units held at each index. -/
def positions_Stock (signals : Signals) : List ℚ :=
  (List.range signals.Price.length).map (fun i => 100 * signals.Signal.getD i 0)

/-- Per-index trade notionals `pos_diff['Stock'] * signals['Price']`
(src/app.py line 103, inside the parenthesis): NaN at index 0 because
`positions.diff()` has no prior row to diff against. -/
def portfolio_trades (signals : Signals) : List (Option ℚ) :=
  (List.range signals.Price.length).map
    (fun i => ((pdDiff (positions_Stock signals)).getD i none).map
      (fun d => d * signals.Price.getD i 0))

/-- Column `portfolio['holdings'] = positions['Stock'] * signals['Price']`
(src/app.py line 102). -/
def portfolio_holdings (signals : Signals) : List ℚ :=
  (List.range signals.Price.length).map
    (fun i => (positions_Stock signals).getD i 0 * signals.Price.getD i 0)

/-- Column `portfolio['cash'] = initial_capital -
(pos_diff['Stock'] * signals['Price']).cumsum()` (src/app.py line 103). -/
def portfolio_cash (signals : Signals) (initial_capital : ℚ) :
    List (Option ℚ) :=
  (nanCumsum (portfolio_trades signals)).map
    (fun o => o.map (fun v => initial_capital - v))

/-- Column `portfolio['total'] = portfolio['cash'] + portfolio['holdings']`
(src/app.py line 104). -/
def portfolio_total (signals : Signals) (initial_capital : ℚ) :
    List (Option ℚ) :=
  (List.range signals.Price.length).map
    (fun i => ((portfolio_cash signals initial_capital).getD i none).map
      (fun v => v + (portfolio_holdings signals).getD i 0))

/-- Column `portfolio['returns'] = portfolio['total'].pct_change()`
(src/app.py line 105).  The default forward fill of `pct_change` is vacuous
here because the only NaN `total` can contain sits at index 0, where there
is nothing to fill from. -/
def portfolio_returns (signals : Signals) (initial_capital : ℚ) :
    List (Option ℚ) :=
  (List.range signals.Price.length).map
    (fun i => if i = 0 then none
      else (nanDiv ((portfolio_total signals initial_capital).getD i none)
        ((portfolio_total signals initial_capital).getD (i - 1) none)).map
        (fun r => r - 1))

/-- Columns of the `portfolio` DataFrame (src/app.py lines 96-107).
`Stock` is the column inherited from `positions.multiply(signals['Price'],
axis=0)` (line 99), which coincides with `holdings`. -/
structure Portfolio where
  Stock : List ℚ
  holdings : List ℚ
  cash : List (Option ℚ)
  total : List (Option ℚ)
  returns : List (Option ℚ)
deriving DecidableEq

/-- Embedding of `portfolio_performance` (src/app.py lines 96-107). -/
def portfolio_performance (signals : Signals) (initial_capital : ℚ) :
    Portfolio :=
  { Stock := portfolio_holdings signals
    holdings := portfolio_holdings signals
    cash := portfolio_cash signals initial_capital
    total := portfolio_total signals initial_capital
    returns := portfolio_returns signals initial_capital }

/-- Message of the `IndexError` raised by positional lookup `series[-1]` /
`series[0]` on an empty series. -/
def indexError : String := "IndexError"

/-- Summary metric `total_return = portfolio['total'][-1] /
portfolio['total'][0] - 1` (src/app.py line 127); the positional lookups
raise on an empty series. -/
def total_return (portfolio : Portfolio) : Except String (Option ℚ) :=
  match portfolio.total.getLast?, portfolio.total.head? with
  | some l, some f => .ok ((nanDiv l f).map (fun r => r - 1))
  | _, _ => .error indexError

/-- Summary metric `final_value = portfolio['total'][-1]`
(src/app.py line 129). -/
def final_value (portfolio : Portfolio) : Except String (Option ℚ) :=
  match portfolio.total.getLast? with
  | some l => .ok l
  | none => .error indexError

/-! Positional-access helper lemmas. -/

lemma getD_range_map {α : Type} (f : Nat → α) (n i : Nat) (d : α) (h : i < n) :
    ((List.range n).map f).getD i d = f i := by
  rw [List.getD_eq_getElem?_getD, List.getElem?_map, List.getElem?_range h]
  rfl

lemma getD_map {α β : Type} (g : α → β) (xs : List α) (i : Nat) (d : β)
    (d' : α) (h : i < xs.length) :
    (xs.map g).getD i d = g (xs.getD i d') := by
  rw [List.getD_eq_getElem?_getD, List.getD_eq_getElem?_getD, List.getElem?_map,
    List.getElem?_eq_getElem h]
  rfl

lemma take_range_map {α : Type} (f : Nat → α) (n k : Nat) (h : k ≤ n) :
    ((List.range n).map f).take k = (List.range k).map f := by
  rw [← List.map_take, List.take_range]
  congr 1
  congr 1
  omega

lemma sum_range_map (g : Nat → ℚ) (n : Nat) :
    ((List.range n).map g).sum = ∑ j ∈ Finset.range n, g j := by
  induction n with
  | zero => simp
  | succ m ih =>
      rw [List.range_succ, List.map_append, List.sum_append, Finset.sum_range_succ, ih]
      simp

/-! Facts about the rolling-mean window. -/

lemma windowSlice_eq_drop_take (w : Nat) (p : List ℚ) (i : Nat) :
    windowSlice w p i = (p.drop (i + 1 - w)).take (min w (i + 1)) := by
  unfold windowSlice
  rw [List.drop_take]
  congr 1
  omega

lemma windowSlice_length (w : Nat) (p : List ℚ) (i : Nat) (h : i < p.length) :
    (windowSlice w p i).length = min w (i + 1) := by
  unfold windowSlice
  rw [List.length_drop, List.length_take]
  omega

lemma rollingMean_length (w : Nat) (p : List ℚ) :
    (rollingMean w p).length = p.length := by
  unfold rollingMean
  simp

lemma rollingMean_getD (w : Nat) (p : List ℚ) (i : Nat) (h : i < p.length) :
    (rollingMean w p).getD i 0
      = (windowSlice w p i).sum / ((windowSlice w p i).length : ℚ) := by
  unfold rollingMean
  exact getD_range_map _ _ _ _ h

/-! Facts about the columns built by `moving_average_crossover_core`. -/

lemma mac_core_Price (prices : List ℚ) (sw lw : Nat) :
    (moving_average_crossover_core prices sw lw).Price = prices := rfl

lemma mac_core_Short_MA (prices : List ℚ) (sw lw : Nat) :
    (moving_average_crossover_core prices sw lw).Short_MA
      = rollingMean sw prices := rfl

lemma mac_core_Long_MA (prices : List ℚ) (sw lw : Nat) :
    (moving_average_crossover_core prices sw lw).Long_MA
      = rollingMean lw prices := rfl

lemma mac_core_Signal (prices : List ℚ) (sw lw : Nat) :
    (moving_average_crossover_core prices sw lw).Signal
      = (List.range prices.length).map
          (fun i => if i < sw then (0 : ℚ)
            else if (rollingMean sw prices).getD i 0
                > (rollingMean lw prices).getD i 0 then 1 else 0) := rfl

lemma mac_core_Position (prices : List ℚ) (sw lw : Nat) :
    (moving_average_crossover_core prices sw lw).Position
      = pdDiff (moving_average_crossover_core prices sw lw).Signal := rfl

lemma mac_core_Signal_length (prices : List ℚ) (sw lw : Nat) :
    (moving_average_crossover_core prices sw lw).Signal.length
      = prices.length := by
  rw [mac_core_Signal]
  simp

lemma mac_core_Signal_getD (prices : List ℚ) (sw lw i : Nat)
    (h : i < prices.length) :
    (moving_average_crossover_core prices sw lw).Signal.getD i 0
      = if i < sw then 0
        else if (rollingMean sw prices).getD i 0
            > (rollingMean lw prices).getD i 0 then 1 else 0 := by
  rw [mac_core_Signal]
  exact getD_range_map _ _ _ _ h

/-! Facts about `Series.diff` and the skipna cumulative sum. -/

lemma pdDiff_length (xs : List ℚ) : (pdDiff xs).length = xs.length := by
  unfold pdDiff
  simp

lemma pdDiff_getD_zero (xs : List ℚ) (d : Option ℚ) (h : 0 < xs.length) :
    (pdDiff xs).getD 0 d = none := by
  unfold pdDiff
  rw [getD_range_map _ _ _ _ h]
  simp

lemma pdDiff_getD_pos (xs : List ℚ) (i : Nat) (d : Option ℚ)
    (h1 : 1 ≤ i) (hi : i < xs.length) :
    (pdDiff xs).getD i d = some (xs.getD i 0 - xs.getD (i - 1) 0) := by
  unfold pdDiff
  rw [getD_range_map _ _ _ _ hi, if_neg (by omega)]

lemma nanCumsum_length (xs : List (Option ℚ)) :
    (nanCumsum xs).length = xs.length := by
  unfold nanCumsum
  simp

lemma nanCumsum_getD (xs : List (Option ℚ)) (i : Nat) (d : Option ℚ)
    (h : i < xs.length) :
    (nanCumsum xs).getD i d
      = (xs.getD i none).map (fun _ => sumSome (xs.take (i + 1))) := by
  unfold nanCumsum
  exact getD_range_map _ _ _ _ h

/-! Facts about the portfolio columns. -/

lemma positions_Stock_length (s : Signals) :
    (positions_Stock s).length = s.Price.length := by
  unfold positions_Stock
  simp

lemma positions_Stock_getD (s : Signals) (i : Nat) (h : i < s.Price.length) :
    (positions_Stock s).getD i 0 = 100 * s.Signal.getD i 0 := by
  unfold positions_Stock
  exact getD_range_map _ _ _ _ h

lemma portfolio_trades_length (s : Signals) :
    (portfolio_trades s).length = s.Price.length := by
  unfold portfolio_trades
  simp

lemma portfolio_trades_getD_zero (s : Signals) (d : Option ℚ)
    (h : 0 < s.Price.length) :
    (portfolio_trades s).getD 0 d = none := by
  unfold portfolio_trades
  rw [getD_range_map _ _ _ _ h,
    pdDiff_getD_zero _ _ (by rw [positions_Stock_length]; exact h)]
  rfl

lemma portfolio_trades_getD_pos (s : Signals) (i : Nat) (d : Option ℚ)
    (h1 : 1 ≤ i) (hi : i < s.Price.length) :
    (portfolio_trades s).getD i d
      = some (((positions_Stock s).getD i 0 - (positions_Stock s).getD (i - 1) 0)
          * s.Price.getD i 0) := by
  unfold portfolio_trades
  rw [getD_range_map _ _ _ _ hi,
    pdDiff_getD_pos _ _ _ h1 (by rw [positions_Stock_length]; exact hi)]
  rfl

lemma sumSome_cons_none (xs : List (Option ℚ)) :
    sumSome (none :: xs) = sumSome xs := by
  unfold sumSome
  rfl

lemma filterMap_id_map_some (g : Nat → ℚ) (l : List Nat) :
    (l.map (fun j => some (g j))).filterMap id = l.map g := by
  induction l with
  | nil => rfl
  | cons a t ih => simp [ih]

lemma sumSome_map_some (g : Nat → ℚ) (l : List Nat) :
    sumSome (l.map (fun j => some (g j))) = (l.map g).sum := by
  unfold sumSome
  rw [filterMap_id_map_some]

lemma sumSome_trades_take (s : Signals) (i : Nat) (hi : i < s.Price.length) :
    sumSome ((portfolio_trades s).take (i + 1))
      = ∑ j ∈ Finset.range i,
          (((positions_Stock s).getD (j + 1) 0 - (positions_Stock s).getD j 0)
            * s.Price.getD (j + 1) 0) := by
  have htake : (portfolio_trades s).take (i + 1)
      = (List.range (i + 1)).map (fun k =>
          ((pdDiff (positions_Stock s)).getD k none).map
            (fun d => d * s.Price.getD k 0)) := by
    unfold portfolio_trades
    exact take_range_map _ _ _ (by omega)
  rw [htake, List.range_succ_eq_map, List.map_cons, List.map_map]
  have h0 : ((pdDiff (positions_Stock s)).getD 0 none).map
      (fun d => d * s.Price.getD 0 0) = none := by
    rw [pdDiff_getD_zero _ _ (by rw [positions_Stock_length]; omega)]
    rfl
  rw [h0, sumSome_cons_none]
  have hrest : (List.range i).map
      ((fun k => ((pdDiff (positions_Stock s)).getD k none).map
        (fun d => d * s.Price.getD k 0)) ∘ Nat.succ)
      = (List.range i).map (fun j => some
          (((positions_Stock s).getD (j + 1) 0 - (positions_Stock s).getD j 0)
            * s.Price.getD (j + 1) 0)) := by
    apply List.map_congr_left
    intro j hj
    have hj' : j < i := List.mem_range.mp hj
    simp only [Function.comp]
    rw [pdDiff_getD_pos _ _ _ (by omega)
      (by rw [positions_Stock_length]; omega)]
    simp [Nat.succ_sub_one]
  rw [hrest, sumSome_map_some, sum_range_map]

lemma portfolio_cash_length (s : Signals) (c : ℚ) :
    (portfolio_cash s c).length = s.Price.length := by
  unfold portfolio_cash
  rw [List.length_map, nanCumsum_length, portfolio_trades_length]

lemma portfolio_cash_getD_zero (s : Signals) (c : ℚ) (d : Option ℚ)
    (h : 0 < s.Price.length) :
    (portfolio_cash s c).getD 0 d = none := by
  unfold portfolio_cash
  rw [getD_map _ _ _ _ none
    (by rw [nanCumsum_length, portfolio_trades_length]; exact h)]
  rw [nanCumsum_getD _ _ _ (by rw [portfolio_trades_length]; exact h)]
  rw [portfolio_trades_getD_zero _ _ h]
  rfl

lemma portfolio_cash_getD_pos (s : Signals) (c : ℚ) (i : Nat)
    (h1 : 1 ≤ i) (hi : i < s.Price.length) :
    (portfolio_cash s c).getD i none
      = some (c - ∑ j ∈ Finset.range i,
          (((positions_Stock s).getD (j + 1) 0 - (positions_Stock s).getD j 0)
            * s.Price.getD (j + 1) 0)) := by
  unfold portfolio_cash
  rw [getD_map _ _ _ _ none
    (by rw [nanCumsum_length, portfolio_trades_length]; exact hi)]
  rw [nanCumsum_getD _ _ _ (by rw [portfolio_trades_length]; exact hi)]
  rw [portfolio_trades_getD_pos _ _ _ h1 hi]
  simp only [Option.map_some']
  rw [sumSome_trades_take s i hi]

lemma portfolio_holdings_length (s : Signals) :
    (portfolio_holdings s).length = s.Price.length := by
  unfold portfolio_holdings
  simp

lemma portfolio_holdings_getD (s : Signals) (i : Nat)
    (h : i < s.Price.length) :
    (portfolio_holdings s).getD i 0
      = (positions_Stock s).getD i 0 * s.Price.getD i 0 := by
  unfold portfolio_holdings
  exact getD_range_map _ _ _ _ h

lemma portfolio_total_length (s : Signals) (c : ℚ) :
    (portfolio_total s c).length = s.Price.length := by
  unfold portfolio_total
  simp

lemma portfolio_total_getD_zero (s : Signals) (c : ℚ) (d : Option ℚ)
    (h : 0 < s.Price.length) :
    (portfolio_total s c).getD 0 d = none := by
  unfold portfolio_total
  rw [getD_range_map _ _ _ _ h, portfolio_cash_getD_zero _ _ _ h]
  rfl

lemma portfolio_total_getD_pos (s : Signals) (c : ℚ) (i : Nat)
    (h1 : 1 ≤ i) (hi : i < s.Price.length) :
    (portfolio_total s c).getD i none
      = some ((c - ∑ j ∈ Finset.range i,
          (((positions_Stock s).getD (j + 1) 0 - (positions_Stock s).getD j 0)
            * s.Price.getD (j + 1) 0))
        + (positions_Stock s).getD i 0 * s.Price.getD i 0) := by
  unfold portfolio_total
  rw [getD_range_map _ _ _ _ hi, portfolio_cash_getD_pos _ _ _ h1 hi]
  simp only [Option.map_some']
  rw [portfolio_holdings_getD _ _ hi]

lemma rollingMean_mean_form (w : Nat) (p : List ℚ) (i : Nat)
    (h : i < p.length) :
    (rollingMean w p).getD i 0
      = ((p.drop (i + 1 - w)).take (min w (i + 1))).sum
          / ((min w (i + 1) : Nat) : ℚ) := by
  rw [rollingMean_getD _ _ _ h, windowSlice_length _ _ _ h,
    windowSlice_eq_drop_take]

lemma trailing_window_length (w : Nat) (p : List ℚ) (i : Nat)
    (h : i < p.length) (hw : w ≤ i + 1) :
    ((p.drop (i + 1 - w)).take (min w (i + 1))).length = w := by
  rw [List.length_take, List.length_drop]
  omega

lemma trailing_window_prefix (w : Nat) (p : List ℚ) (i : Nat)
    (hw : i + 1 ≤ w) :
    (p.drop (i + 1 - w)).take (min w (i + 1)) = p.take (i + 1) := by
  have h1 : i + 1 - w = 0 := by omega
  have h2 : min w (i + 1) = i + 1 := by omega
  rw [h1, h2, List.drop_zero]

/-- C1: for every non-empty price series and windows `≥ 1`, `Short_MA[i]`
(resp. `Long_MA[i]`) produced by the signal engine is the exact arithmetic
mean of `price[max(0, i-w+1) .. i]`; in particular for `i ≥ w - 1` that
window consists of the trailing `w` prices ending at `i` (it has length
exactly `w`), and for `i < w - 1` it is all prices from index 0 to `i`. -/
theorem rolling_mean_spec (prices : List ℚ) (short_window long_window : Nat)
    (hne : prices ≠ []) (hsw : 1 ≤ short_window) (hlw : 1 ≤ long_window)
    (i : Nat) (hi : i < prices.length) :
    ((moving_average_crossover_core prices short_window long_window).Short_MA.getD i 0
        = ((prices.drop (i + 1 - short_window)).take (min short_window (i + 1))).sum
            / ((min short_window (i + 1) : Nat) : ℚ))
  ∧ ((moving_average_crossover_core prices short_window long_window).Long_MA.getD i 0
        = ((prices.drop (i + 1 - long_window)).take (min long_window (i + 1))).sum
            / ((min long_window (i + 1) : Nat) : ℚ))
  ∧ (short_window ≤ i + 1 →
        ((prices.drop (i + 1 - short_window)).take (min short_window (i + 1))).length
          = short_window)
  ∧ (i + 1 ≤ short_window →
        (prices.drop (i + 1 - short_window)).take (min short_window (i + 1))
          = prices.take (i + 1))
  ∧ (long_window ≤ i + 1 →
        ((prices.drop (i + 1 - long_window)).take (min long_window (i + 1))).length
          = long_window)
  ∧ (i + 1 ≤ long_window →
        (prices.drop (i + 1 - long_window)).take (min long_window (i + 1))
          = prices.take (i + 1)) := by
  rw [mac_core_Short_MA, mac_core_Long_MA]
  exact ⟨rollingMean_mean_form _ _ _ hi, rollingMean_mean_form _ _ _ hi,
    trailing_window_length _ _ _ hi, trailing_window_prefix _ _ _,
    trailing_window_length _ _ _ hi, trailing_window_prefix _ _ _⟩

theorem rolling_mean_spec_witness :
    ([(10 : ℚ), 12] ≠ [] ∧ 1 ≤ 1 ∧ 1 ≤ 2 ∧ 1 < ([(10 : ℚ), 12]).length)
  ∧ (moving_average_crossover_core [(10 : ℚ), 12] 1 2).Short_MA.getD 1 0
      = ((([(10 : ℚ), 12]).drop (1 + 1 - 1)).take (min 1 (1 + 1))).sum
          / ((min 1 (1 + 1) : Nat) : ℚ) :=
  ⟨⟨by decide, by decide, by decide, by decide⟩,
    (rolling_mean_spec [(10 : ℚ), 12] 1 2 (by decide) (by decide) (by decide)
      1 (by decide)).1⟩

/-- C2: for every non-empty price series and windows `≥ 1`, the signal is
`0.0` at every index below `short_window` regardless of the moving
averages; from index `short_window` on it is `1.0` exactly when
`Short_MA > Long_MA` and `0.0` otherwise (so equality yields `0.0`); and
every signal value lies in `{0.0, 1.0}`. -/
theorem signal_rule_spec (prices : List ℚ) (short_window long_window : Nat)
    (hne : prices ≠ []) (hsw : 1 ≤ short_window) (hlw : 1 ≤ long_window)
    (i : Nat) (hi : i < prices.length) :
    (i < short_window →
      (moving_average_crossover_core prices short_window long_window).Signal.getD i 0
        = 0)
  ∧ (short_window ≤ i →
      (moving_average_crossover_core prices short_window long_window).Signal.getD i 0
        = if (moving_average_crossover_core prices short_window long_window).Short_MA.getD i 0
            > (moving_average_crossover_core prices short_window long_window).Long_MA.getD i 0
          then 1 else 0)
  ∧ ((moving_average_crossover_core prices short_window long_window).Signal.getD i 0 = 0
    ∨ (moving_average_crossover_core prices short_window long_window).Signal.getD i 0 = 1) := by
  rw [mac_core_Signal_getD _ _ _ _ hi, mac_core_Short_MA, mac_core_Long_MA]
  refine ⟨fun h => by rw [if_pos h], fun h => by rw [if_neg (by omega)], ?_⟩
  by_cases h1 : i < short_window
  · left
    rw [if_pos h1]
  · rw [if_neg h1]
    by_cases h2 : (rollingMean short_window prices).getD i 0
        > (rollingMean long_window prices).getD i 0
    · right
      rw [if_pos h2]
    · left
      rw [if_neg h2]

theorem signal_rule_spec_witness :
    ([(10 : ℚ), 12] ≠ [] ∧ 1 ≤ 1 ∧ 1 ≤ 2 ∧ 1 < ([(10 : ℚ), 12]).length)
  ∧ ((moving_average_crossover_core [(10 : ℚ), 12] 1 2).Signal.getD 1 0 = 0
    ∨ (moving_average_crossover_core [(10 : ℚ), 12] 1 2).Signal.getD 1 0 = 1) :=
  ⟨⟨by decide, by decide, by decide, by decide⟩,
    (signal_rule_spec [(10 : ℚ), 12] 1 2 (by decide) (by decide) (by decide)
      1 (by decide)).2.2⟩

lemma pdDiff_head (xs : List ℚ) (h : xs ≠ []) :
    (pdDiff xs).head? = some none := by
  rw [List.head?_eq_getElem?]
  unfold pdDiff
  rw [List.getElem?_map, List.getElem?_range (by simpa [List.length_pos] using h)]
  rfl

/-- C7: for every price series of length `n ≥ 2` and windows `≥ 1`, the
position column is the first difference of the signal: `position[0]` is
NaN (no prior state, never equal to `±1`), `position[i] =
signal[i] - signal[i-1]` for `i ≥ 1`, and the sum of `position[1..n-1]`
telescopes to `signal[n-1] - signal[0]`. -/
theorem position_spec (prices : List ℚ) (short_window long_window : Nat)
    (hn : 2 ≤ prices.length) (hsw : 1 ≤ short_window) (hlw : 1 ≤ long_window)
    (i : Nat) (h1 : 1 ≤ i) (hi : i < prices.length) :
    (moving_average_crossover_core prices short_window long_window).Position.head?
      = some none
  ∧ (moving_average_crossover_core prices short_window long_window).Position.getD i none
      = some ((moving_average_crossover_core prices short_window long_window).Signal.getD i 0
          - (moving_average_crossover_core prices short_window long_window).Signal.getD (i - 1) 0)
  ∧ (moving_average_crossover_core prices short_window long_window).Position.getD 0 (some 0)
      ≠ some 1
  ∧ (moving_average_crossover_core prices short_window long_window).Position.getD 0 (some 0)
      ≠ some (-1)
  ∧ ∑ j ∈ Finset.range (prices.length - 1),
      (((moving_average_crossover_core prices short_window long_window).Position.getD (j + 1) none).getD 0)
      = (moving_average_crossover_core prices short_window long_window).Signal.getD (prices.length - 1) 0
        - (moving_average_crossover_core prices short_window long_window).Signal.getD 0 0 := by
  have hlen := mac_core_Signal_length prices short_window long_window
  have hpos := mac_core_Position prices short_window long_window
  refine ⟨?_, ?_, ?_, ?_, ?_⟩
  · rw [hpos]
    refine pdDiff_head _ (fun hnil => ?_)
    rw [hnil] at hlen
    simp at hlen
    omega
  · rw [hpos, pdDiff_getD_pos _ _ _ h1 (by rw [hlen]; exact hi)]
  · rw [hpos, pdDiff_getD_zero _ _ (by rw [hlen]; omega)]
    simp
  · rw [hpos, pdDiff_getD_zero _ _ (by rw [hlen]; omega)]
    simp
  · have hsum : ∀ j ∈ Finset.range (prices.length - 1),
        (((moving_average_crossover_core prices short_window long_window).Position.getD (j + 1) none).getD 0)
        = (moving_average_crossover_core prices short_window long_window).Signal.getD (j + 1) 0
          - (moving_average_crossover_core prices short_window long_window).Signal.getD j 0 := by
      intro j hj
      have hj' : j < prices.length - 1 := Finset.mem_range.mp hj
      rw [hpos, pdDiff_getD_pos _ _ _ (by omega) (by rw [hlen]; omega)]
      simp
    rw [Finset.sum_congr rfl hsum]
    exact Finset.sum_range_sub
      (fun k => (moving_average_crossover_core prices short_window long_window).Signal.getD k 0)
      (prices.length - 1)

theorem position_spec_witness :
    (2 ≤ ([(10 : ℚ), 12, 15]).length ∧ 1 ≤ 1 ∧ 1 ≤ 2
      ∧ 1 ≤ 1 ∧ 1 < ([(10 : ℚ), 12, 15]).length)
  ∧ ∑ j ∈ Finset.range (([(10 : ℚ), 12, 15]).length - 1),
      (((moving_average_crossover_core [(10 : ℚ), 12, 15] 1 2).Position.getD (j + 1) none).getD 0)
      = (moving_average_crossover_core [(10 : ℚ), 12, 15] 1 2).Signal.getD
          (([(10 : ℚ), 12, 15]).length - 1) 0
        - (moving_average_crossover_core [(10 : ℚ), 12, 15] 1 2).Signal.getD 0 0 :=
  ⟨⟨by decide, by decide, by decide, by decide, by decide⟩,
    (position_spec [(10 : ℚ), 12, 15] 1 2 (by decide) (by decide) (by decide)
      1 (by decide) (by decide)).2.2.2.2⟩

lemma windowSlice_map_mul (c : ℚ) (w : Nat) (p : List ℚ) (i : Nat) :
    windowSlice w (p.map (fun x => c * x)) i
      = (windowSlice w p i).map (fun x => c * x) := by
  unfold windowSlice
  rw [← List.map_take, ← List.map_drop]

lemma list_sum_map_mul (c : ℚ) (l : List ℚ) :
    (l.map (fun x => c * x)).sum = c * l.sum := by
  induction l with
  | nil => simp
  | cons a t ih => simp [ih, mul_add]

lemma rollingMean_map_mul (c : ℚ) (w : Nat) (p : List ℚ) :
    rollingMean w (p.map (fun x => c * x))
      = (rollingMean w p).map (fun x => c * x) := by
  unfold rollingMean
  rw [List.length_map, List.map_map]
  apply List.map_congr_left
  intro i hi
  simp only [Function.comp]
  rw [windowSlice_map_mul, list_sum_map_mul, List.length_map, mul_div_assoc]

lemma getD_rollingMean_map_mul (c : ℚ) (w : Nat) (p : List ℚ) (i : Nat)
    (h : i < p.length) :
    (rollingMean w (p.map (fun x => c * x))).getD i 0
      = c * (rollingMean w p).getD i 0 := by
  rw [rollingMean_map_mul,
    getD_map (fun x => c * x) _ _ _ 0 (by rw [rollingMean_length]; exact h)]

lemma mac_core_Signal_map_mul (c : ℚ) (hc : 0 < c) (prices : List ℚ)
    (sw lw : Nat) :
    (moving_average_crossover_core (prices.map (fun x => c * x)) sw lw).Signal
      = (moving_average_crossover_core prices sw lw).Signal := by
  rw [mac_core_Signal, mac_core_Signal, List.length_map]
  apply List.map_congr_left
  intro i hi
  have hi' : i < prices.length := List.mem_range.mp hi
  by_cases h1 : i < sw
  · rw [if_pos h1, if_pos h1]
  · rw [if_neg h1, if_neg h1,
      getD_rollingMean_map_mul _ _ _ _ hi', getD_rollingMean_map_mul _ _ _ _ hi']
    by_cases h2 : (rollingMean sw prices).getD i 0
        > (rollingMean lw prices).getD i 0
    · rw [if_pos h2, if_pos ((mul_lt_mul_left hc).mpr h2)]
    · rw [if_neg h2, if_neg (fun hcon => h2 ((mul_lt_mul_left hc).mp hcon))]

/-- C10: for every price series, every pair of windows and every scalar
`c > 0`, running the signal engine on the series with every price
multiplied by `c` yields exactly the same `Signal` and `Position` columns,
while `Price`, `Short_MA` and `Long_MA` are scaled by `c`. -/
theorem signal_scale_invariance (prices : List ℚ)
    (short_window long_window : Nat) (c : ℚ) (hc : 0 < c) :
    (moving_average_crossover_core (prices.map (fun x => c * x)) short_window long_window).Signal
      = (moving_average_crossover_core prices short_window long_window).Signal
  ∧ (moving_average_crossover_core (prices.map (fun x => c * x)) short_window long_window).Position
      = (moving_average_crossover_core prices short_window long_window).Position
  ∧ (moving_average_crossover_core (prices.map (fun x => c * x)) short_window long_window).Price
      = prices.map (fun x => c * x)
  ∧ (moving_average_crossover_core (prices.map (fun x => c * x)) short_window long_window).Short_MA
      = (moving_average_crossover_core prices short_window long_window).Short_MA.map
          (fun x => c * x)
  ∧ (moving_average_crossover_core (prices.map (fun x => c * x)) short_window long_window).Long_MA
      = (moving_average_crossover_core prices short_window long_window).Long_MA.map
          (fun x => c * x) := by
  have hsig := mac_core_Signal_map_mul c hc prices short_window long_window
  refine ⟨hsig, ?_, rfl, ?_, ?_⟩
  · rw [mac_core_Position, mac_core_Position, hsig]
  · rw [mac_core_Short_MA, mac_core_Short_MA, rollingMean_map_mul]
  · rw [mac_core_Long_MA, mac_core_Long_MA, rollingMean_map_mul]

theorem signal_scale_invariance_witness :
    (0 < (2 : ℚ))
  ∧ (moving_average_crossover_core (([(10 : ℚ), 12]).map (fun x => 2 * x)) 1 2).Signal
      = (moving_average_crossover_core [(10 : ℚ), 12] 1 2).Signal :=
  ⟨by decide, (signal_scale_invariance [(10 : ℚ), 12] 1 2 2 (by decide)).1⟩

/-- C3 (amended): for every signal series and initial capital the simulator
computes `stock_units[i] = 100 * signal[i]`, `holdings_value[i] =
stock_units[i] * price[i]` and `total_equity[i] = cash[i] +
holdings_value[i]` at every index, and `cash[i] = initial_capital -
cumulative_sum of (stock_units[j] - stock_units[j-1]) * price[j]` for every
`i ≥ 1`; at `i = 0`, however, `cash[0]` and `total_equity[0]` are NaN
(`positions.diff()` has no prior row), not `initial_capital - 0`. -/
theorem portfolio_accounting_spec (s : Signals) (c : ℚ) (i : Nat)
    (hi : i < s.Price.length) :
    (positions_Stock s).getD i 0 = 100 * s.Signal.getD i 0
  ∧ (portfolio_performance s c).holdings.getD i 0
      = (positions_Stock s).getD i 0 * s.Price.getD i 0
  ∧ (i = 0 → (portfolio_performance s c).cash.getD i none = none
      ∧ (portfolio_performance s c).total.getD i none = none)
  ∧ (1 ≤ i → (portfolio_performance s c).cash.getD i none
      = some (c - ∑ j ∈ Finset.range i,
          (((positions_Stock s).getD (j + 1) 0 - (positions_Stock s).getD j 0)
            * s.Price.getD (j + 1) 0)))
  ∧ (1 ≤ i → (portfolio_performance s c).total.getD i none
      = some ((c - ∑ j ∈ Finset.range i,
          (((positions_Stock s).getD (j + 1) 0 - (positions_Stock s).getD j 0)
            * s.Price.getD (j + 1) 0))
        + (portfolio_performance s c).holdings.getD i 0)) := by
  refine ⟨positions_Stock_getD s i hi, portfolio_holdings_getD s i hi, ?_, ?_, ?_⟩
  · rintro rfl
    exact ⟨portfolio_cash_getD_zero s c none hi, portfolio_total_getD_zero s c none hi⟩
  · intro h1
    exact portfolio_cash_getD_pos s c i h1 hi
  · intro h1
    have := portfolio_total_getD_pos s c i h1 hi
    rw [show (portfolio_performance s c).holdings.getD i 0
        = (positions_Stock s).getD i 0 * s.Price.getD i 0
      from portfolio_holdings_getD s i hi]
    exact this

/-- C3 counterexample: on the spec's own scenario (prices
`[10, 10, 10, 12, 8, 8]`, windows 2 and 3, capital 1000) the cash column at
index 0 is NaN, not `initial_capital - 0 = 1000` as the claimed cumulative
formula requires. -/
theorem portfolio_accounting_cex :
    (portfolio_performance (moving_average_crossover_core
      [(10 : ℚ), 10, 10, 12, 8, 8] 2 3) 1000).cash.getD 0 (some 0)
      ≠ some 1000 := by decide

theorem portfolio_accounting_witness :
    (1 < (moving_average_crossover_core [(10 : ℚ), 12] 1 2).Price.length)
  ∧ (1 ≤ 1 → (portfolio_performance
        (moving_average_crossover_core [(10 : ℚ), 12] 1 2) 1000).cash.getD 1 none
      = some (1000 - ∑ j ∈ Finset.range 1,
          (((positions_Stock (moving_average_crossover_core [(10 : ℚ), 12] 1 2)).getD (j + 1) 0
            - (positions_Stock (moving_average_crossover_core [(10 : ℚ), 12] 1 2)).getD j 0)
            * (moving_average_crossover_core [(10 : ℚ), 12] 1 2).Price.getD (j + 1) 0))) :=
  ⟨by decide,
    (portfolio_accounting_spec (moving_average_crossover_core [(10 : ℚ), 12] 1 2)
      1000 1 (by decide)).2.2.2.1⟩

/-- C4 (amended/corrected): for every signal series over a non-empty price
series and every initial capital — whatever `signal[0]` is — the simulator
yields NaN, not the initial capital, at the first tick: `positions.diff()`
is NaN at index 0 and the NaN propagates into `cash[0]` and
`total_equity[0]`. -/
theorem first_tick_nan (s : Signals) (c : ℚ) (hne : s.Price ≠ []) :
    (portfolio_performance s c).cash.getD 0 (some 0) = none
  ∧ (portfolio_performance s c).total.getD 0 (some 0) = none := by
  have h : 0 < s.Price.length := List.length_pos.mpr hne
  exact ⟨portfolio_cash_getD_zero s c _ h, portfolio_total_getD_zero s c _ h⟩

/-- C4 counterexample: on the spec's scenario the first signal is 0.0, yet
`total_equity[0]` is NaN rather than the initial capital 1000. -/
theorem first_tick_cex :
    (moving_average_crossover_core [(10 : ℚ), 10, 10, 12, 8, 8] 2 3).Signal.getD 0 1 = 0
  ∧ (portfolio_performance (moving_average_crossover_core
      [(10 : ℚ), 10, 10, 12, 8, 8] 2 3) 1000).total.getD 0 (some 0)
      ≠ some 1000 := by decide

theorem first_tick_nan_witness :
    ((moving_average_crossover_core [(50 : ℚ), 50] 1 2).Price ≠ [])
  ∧ (portfolio_performance (moving_average_crossover_core [(50 : ℚ), 50] 1 2)
      500).cash.getD 0 (some 0) = none :=
  ⟨by decide,
    (first_tick_nan (moving_average_crossover_core [(50 : ℚ), 50] 1 2) 500 (by decide)).1⟩

/-- C8: trades are equity-neutral at execution: for every signal series,
capital and index `i ≥ 2`, `total_equity[i] = total_equity[i-1] +
stock_units[i-1] * (price[i] - price[i-1])` — equity moves only through
price changes on previously held units, never through the act of trading. -/
theorem equity_increment_spec (s : Signals) (c : ℚ) (i : Nat)
    (h2 : 2 ≤ i) (hi : i < s.Price.length) :
    (portfolio_performance s c).total.getD i none
      = ((portfolio_performance s c).total.getD (i - 1) none).map
          (fun t => t + (positions_Stock s).getD (i - 1) 0
            * (s.Price.getD i 0 - s.Price.getD (i - 1) 0)) := by
  obtain ⟨k, rfl⟩ : ∃ k, i = k + 1 := ⟨i - 1, by omega⟩
  have hk1 : 1 ≤ k := by omega
  have hki : k < s.Price.length := by omega
  rw [Nat.add_sub_cancel]
  rw [show (portfolio_performance s c).total = portfolio_total s c from rfl]
  rw [portfolio_total_getD_pos s c (k + 1) (by omega) hi,
    portfolio_total_getD_pos s c k hk1 hki]
  simp only [Option.map_some']
  congr 1
  rw [Finset.sum_range_succ]
  ring

theorem equity_increment_witness :
    (2 ≤ 2 ∧ 2 < (moving_average_crossover_core [(10 : ℚ), 12, 11, 13] 1 2).Price.length)
  ∧ (portfolio_performance (moving_average_crossover_core [(10 : ℚ), 12, 11, 13] 1 2)
        1000).total.getD 2 none
      = ((portfolio_performance (moving_average_crossover_core [(10 : ℚ), 12, 11, 13] 1 2)
          1000).total.getD (2 - 1) none).map
          (fun t => t + (positions_Stock (moving_average_crossover_core
              [(10 : ℚ), 12, 11, 13] 1 2)).getD (2 - 1) 0
            * ((moving_average_crossover_core [(10 : ℚ), 12, 11, 13] 1 2).Price.getD 2 0
              - (moving_average_crossover_core [(10 : ℚ), 12, 11, 13] 1 2).Price.getD (2 - 1) 0)) :=
  ⟨⟨by decide, by decide⟩,
    equity_increment_spec (moving_average_crossover_core [(10 : ℚ), 12, 11, 13] 1 2)
      1000 2 (by decide) (by decide)⟩

/-- C9: cash is frame-preserved between events: for every signal series,
capital and index `i ≥ 2` at which the signal does not change
(`signal[i] = signal[i-1]`), `cash[i] = cash[i-1]`. -/
theorem cash_frame_spec (s : Signals) (c : ℚ) (i : Nat)
    (h2 : 2 ≤ i) (hi : i < s.Price.length)
    (hsig : s.Signal.getD i 0 = s.Signal.getD (i - 1) 0) :
    (portfolio_performance s c).cash.getD i none
      = (portfolio_performance s c).cash.getD (i - 1) none := by
  obtain ⟨k, rfl⟩ : ∃ k, i = k + 1 := ⟨i - 1, by omega⟩
  rw [Nat.add_sub_cancel] at hsig ⊢
  have hk1 : 1 ≤ k := by omega
  have hki : k < s.Price.length := by omega
  rw [show (portfolio_performance s c).cash = portfolio_cash s c from rfl]
  rw [portfolio_cash_getD_pos s c (k + 1) (by omega) hi,
    portfolio_cash_getD_pos s c k hk1 hki]
  have hu : (positions_Stock s).getD (k + 1) 0 = (positions_Stock s).getD k 0 := by
    rw [positions_Stock_getD s (k + 1) hi, positions_Stock_getD s k hki, hsig]
  rw [Finset.sum_range_succ, hu]
  congr 1
  ring

attribute [local semireducible] Rat.add Rat.mul Rat.inv Rat.sub

theorem cash_frame_spec_witness :
    (2 ≤ 2 ∧ 2 < (moving_average_crossover_core [(50 : ℚ), 50, 50, 50] 2 3).Price.length
      ∧ (moving_average_crossover_core [(50 : ℚ), 50, 50, 50] 2 3).Signal.getD 2 0
        = (moving_average_crossover_core [(50 : ℚ), 50, 50, 50] 2 3).Signal.getD (2 - 1) 0)
  ∧ (portfolio_performance (moving_average_crossover_core [(50 : ℚ), 50, 50, 50] 2 3)
        1000).cash.getD 2 none
      = (portfolio_performance (moving_average_crossover_core [(50 : ℚ), 50, 50, 50] 2 3)
        1000).cash.getD (2 - 1) none :=
  ⟨⟨by decide, by decide, by decide⟩,
    cash_frame_spec (moving_average_crossover_core [(50 : ℚ), 50, 50, 50] 2 3)
      1000 2 (by decide) (by decide) (by decide)⟩

/-- C5 (amended/corrected): the signal engine fails — the `ValueError`
pandas raises when `min_periods=1` exceeds the window — exactly when a
window parameter is non-positive; the length of the price series is never
checked, so series with zero or one point are accepted and produce
well-defined output, and `portfolio_performance` has no failure path at
all, producing a full-length output for every input. -/
theorem error_policy_spec (prices : List ℚ) (short_window long_window : Nat)
    (c : ℚ) (hsw : 1 ≤ short_window) (hlw : 1 ≤ long_window) :
    moving_average_crossover prices short_window long_window
      = .ok (moving_average_crossover_core prices short_window long_window)
  ∧ moving_average_crossover prices 0 long_window = .error windowError
  ∧ moving_average_crossover prices short_window 0 = .error windowError
  ∧ (portfolio_performance
      (moving_average_crossover_core prices short_window long_window) c).total.length
      = prices.length := by
  refine ⟨?_, ?_, ?_, ?_⟩
  · unfold moving_average_crossover
    rw [if_neg (by omega)]
  · unfold moving_average_crossover
    rw [if_pos (Or.inl rfl)]
  · unfold moving_average_crossover
    rw [if_pos (Or.inr rfl)]
  · exact (portfolio_total_length _ c).trans (by rw [mac_core_Price])

/-- C5 counterexample: on a one-point price series neither core function
fails — the signal engine returns a well-formed result instead of
signalling an InsufficientData error. -/
theorem error_policy_cex :
    moving_average_crossover [(5 : ℚ)] 2 3
      = .ok (moving_average_crossover_core [(5 : ℚ)] 2 3) := by decide

theorem error_policy_spec_witness :
    (1 ≤ 2 ∧ 1 ≤ 3)
  ∧ moving_average_crossover [(7 : ℚ)] 2 3
      = .ok (moving_average_crossover_core [(7 : ℚ)] 2 3) :=
  ⟨⟨by decide, by decide⟩,
    (error_policy_spec [(7 : ℚ)] 2 3 1000 (by decide) (by decide)).1⟩

lemma nanDiv_none_right (a : Option ℚ) : nanDiv a none = none := by
  cases a <;> rfl

lemma portfolio_total_head (s : Signals) (c : ℚ) (h : 0 < s.Price.length) :
    (portfolio_total s c).head? = some none := by
  rw [List.head?_eq_getElem?]
  unfold portfolio_total
  rw [List.getElem?_map, List.getElem?_range h]
  simp only [Option.map_some']
  rw [portfolio_cash_getD_zero s c none h]
  rfl

lemma portfolio_total_getLast (s : Signals) (c : ℚ) (h : 0 < s.Price.length) :
    (portfolio_total s c).getLast?
      = some ((portfolio_total s c).getD (s.Price.length - 1) none) := by
  have hlt : s.Price.length - 1 < (portfolio_total s c).length := by
    rw [portfolio_total_length]
    omega
  rw [List.getLast?_eq_getElem?, portfolio_total_length,
    List.getElem?_eq_getElem hlt, List.getD_eq_getElem?_getD,
    List.getElem?_eq_getElem hlt]
  rfl

/-- C6 (amended/corrected): for every signal series over a non-empty price
series, the final-value summary is `total_equity[last]` and the
total-return summary succeeds and evaluates the code's formula
`total_equity[last] / total_equity[first] - 1`, which is NaN because
`total_equity[0]` is NaN; in particular a one-point series does not fail
with a division error — only an empty series makes the positional lookups
raise. -/
theorem summary_metrics_spec (s : Signals) (c : ℚ) (hne : s.Price ≠ []) :
    total_return (portfolio_performance s c) = .ok none
  ∧ final_value (portfolio_performance s c)
      = .ok ((portfolio_performance s c).total.getD (s.Price.length - 1) none) := by
  have h : 0 < s.Price.length := List.length_pos.mpr hne
  have hhead : (portfolio_performance s c).total.head? = some none :=
    portfolio_total_head s c h
  have hlast : (portfolio_performance s c).total.getLast?
      = some ((portfolio_performance s c).total.getD (s.Price.length - 1) none) :=
    portfolio_total_getLast s c h
  constructor
  · unfold total_return
    rw [hhead, hlast]
    dsimp only
    rw [nanDiv_none_right]
    rfl
  · unfold final_value
    rw [hlast]

/-- C6 counterexample: on a one-point price series the total-return
summary does not fail; it succeeds and yields NaN. -/
theorem summary_metrics_cex :
    total_return (portfolio_performance
      (moving_average_crossover_core [(5 : ℚ)] 2 3) 1000) = .ok none := by decide

theorem summary_metrics_spec_witness :
    ((moving_average_crossover_core [(10 : ℚ), 12] 1 2).Price ≠ [])
  ∧ total_return (portfolio_performance
      (moving_average_crossover_core [(10 : ℚ), 12] 1 2) 1000) = .ok none :=
  ⟨by decide,
    (summary_metrics_spec (moving_average_crossover_core [(10 : ℚ), 12] 1 2)
      1000 (by decide)).1⟩
